import Mathlib

/-!
# osctrl admin console: JSON carve and log handlers

A shallow embedding of `cmd/admin/json-carves.go` and `cmd/admin/json-logs.go`.

Each HTTP handler is a function from the collaborators it uses (`Env`), the
request (`Request`) and the state of the backing stores to an `Outcome`: the
ordered trace of everything the handler did (metric increments, log lines,
store calls, writes on the `http.ResponseWriter`) and the store state it left.
An early `return` of the Go code is the end of the trace.
-/

set_option autoImplicit false

namespace Osctrl

/-! ## Go values -/

/-- A `time.Time` instant (the `CreatedAt` column of a stored row). -/
abbrev Time := Int

/-- Go `map[string]V`, as an association list read with `List.lookup`. -/
abbrev GoMap (V : Type) := List (String × V)

/-- Go `m[k]` on a `map[string]bool`: the zero value `false` for a missing key. -/
def GoMap.index (m : GoMap Bool) (k : String) : Bool :=
  (m.lookup k).getD false

/-- Go `m[k] = v`: replaces the value of an existing key, adds the key otherwise. -/
def GoMap.set {V : Type} : GoMap V → String → V → GoMap V
  | [], k, v => [(k, v)]
  | (k', v') :: m, k, v => if k' = k then (k', v) :: m else (k', v') :: GoMap.set m k v

/-- The keys of a Go map. -/
def GoMap.keys {V : Type} (m : GoMap V) : List String :=
  m.map Prod.fst

/-- A raw byte payload (`Columns`, `Data`); it has the carrier of a Go string, which
is a byte sequence as well. -/
abbrev RawMessage := String

/-- Go conversion `string(b)` of a byte payload: the same bytes. -/
def string (b : RawMessage) : String := b

/-- `http.StatusOK`. -/
def StatusOK : Nat := 200

/-! ## `strconv.ParseInt(s, 10, 64)` (Go standard library) -/

/-- Value of an ASCII decimal digit, `none` for any other character. -/
def digitVal (c : Char) : Option Nat :=
  if '0' ≤ c ∧ c ≤ '9' then some (c.toNat - '0'.toNat) else none

/-- The digits of `strconv.ParseUint` in base 10 without the range check: `none` is
`ErrSyntax` (an empty string or a character that is not a decimal digit). -/
def parseDigits : List Char → Option Nat
  | [] => none
  | cs => cs.foldlM (fun acc c => (digitVal c).map (fun d => acc * 10 + d)) 0

/-- `strconv.ParseInt(s, 10, 64)`: an optional sign, then decimal digits, the value
within `[-2^63, 2^63 - 1]`; any other string is an error. -/
def ParseInt (s : String) : Except String Int :=
  match s.toList with
  | [] => .error "invalid syntax"
  | c :: cs =>
    let neg := c = '-'
    let rest := if c = '+' ∨ c = '-' then cs else c :: cs
    match parseDigits rest with
    | none => .error "invalid syntax"
    | some un =>
      if ¬ neg ∧ un ≥ 2 ^ 63 then .error "value out of range"
      else if neg ∧ un > 2 ^ 63 then .error "value out of range"
      else .ok (if neg then - (un : Int) else (un : Int))

/-! ## Stored records -/

/-- Modelled from the spec: the `queries` package row type returned by
`queriesmgr.GetCarves` is not in this directory; these are the fields the handler
reads (spec §3, Query). -/
structure Query where
  Name : String
  Creator : String
  Path : String
  CreatedAt : Time
  Completed : Bool
  Expected : Int
  Executions : Int
  deriving DecidableEq, Repr

/-- Modelled from the spec: the `carves` package row type returned by
`carvesmgr.GetByQuery` is not in this directory; the handler only takes the length
of the returned slice (spec §3, CarveRecord). -/
structure CarveRecord where
  QueryName : String
  deriving DecidableEq, Repr

/-- Modelled from the spec: row type of `postgresStatusLogs` (spec §3,
StatusLogEntry); the handler reads `CreatedAt`, `Message` and `Severity`. -/
structure StatusLogEntry where
  NodeID : String
  Environment : String
  CreatedAt : Time
  Message : String
  Severity : String
  deriving DecidableEq, Repr

/-- Modelled from the spec: row type of `postgresResultLogs` (spec §3,
ResultLogEntry); the handler reads `CreatedAt`, `Name` and `Columns`. -/
structure ResultLogEntry where
  NodeID : String
  Environment : String
  CreatedAt : Time
  Name : String
  Columns : RawMessage
  deriving DecidableEq, Repr

/-- Modelled from the spec: row type of `postgresQueryLogs` (spec §3,
QueryLogEntry); the handler reads `CreatedAt` and `Data`. -/
structure QueryLogEntry where
  QueryName : String
  CreatedAt : Time
  Data : RawMessage
  deriving DecidableEq, Repr

/-! ## Returned JSON structures -/

/-- Go `CreationTimes`. -/
structure CreationTimes where
  Display : String
  Timestamp : String
  deriving DecidableEq, Repr

/-- Go `CarveProgress`, a `map[string]int`. -/
abbrev CarveProgress := GoMap Int

/-- Go `CarveData`, a `map[string]string`. -/
abbrev CarveData := GoMap String

/-- Go `CarveJSON`. -/
structure CarveJSON where
  Checkbox : String
  Name : String
  Creator : String
  Path : CarveData
  Created : CreationTimes
  Status : String
  Progress : CarveProgress
  deriving DecidableEq, Repr

/-- Go `ReturnedCarves`. -/
structure ReturnedCarves where
  Data : List CarveJSON
  deriving DecidableEq, Repr

/-- Go `LogJSON`. -/
structure LogJSON where
  Created : CreationTimes
  First : String
  Second : String
  deriving DecidableEq, Repr

/-- Go `ReturnedLogs`. -/
structure ReturnedLogs where
  Data : List LogJSON
  deriving DecidableEq, Repr

/-- Go `QueryLogJSON`. -/
structure QueryLogJSON where
  Created : CreationTimes
  Data : String
  deriving DecidableEq, Repr

/-- Go `ReturnedQueryLogs`. -/
structure ReturnedQueryLogs where
  Data : List QueryLogJSON
  deriving DecidableEq, Repr

/-! ## Package-level tables and constants -/

/-- Go `CarvesTargets`. -/
def CarvesTargets : GoMap Bool :=
  [("all", true), ("active", true), ("completed", true)]

/-- Go `LogTypes`. -/
def LogTypes : GoMap Bool :=
  [("result", true), ("status", true)]

/-- Modelled from the spec: the constant `sixHours` is declared outside this
directory; spec §4.4 gives the default window as 21,600 seconds (6 hours). -/
def sixHours : Int := 21600

/-- The service-health counters passed to `incMetric`. -/
inductive Metric where
  | metricAdminReq
  | metricAdminErr
  | metricAdminOK
  deriving DecidableEq, Repr

/-! ## Requests, effects and collaborators -/

/-- One value list of `url.Values`: `r.URL.Query()` creates a key only by appending
a value to it, so a key that is present has a first value `seconds[0]`. -/
structure Values where
  first : String
  more : List String
  deriving DecidableEq, Repr

/-- What a handler reads of the `*http.Request`: the route variables `mux.Vars(r)`
and the query parameters `r.URL.Query()`. -/
structure Request where
  vars : GoMap String
  query : GoMap Values
  deriving DecidableEq, Repr

/-- One observable step of a handler, in program order. -/
inductive Event where
  | incMetric (m : Metric)
  | DebugHTTPDump
  | log (line : String)
  | GetCarves (target : String)
  | GetByQuery (name : String)
  | Exists (env : String)
  | postgresStatusLogs (uuid env : String) (secondsBack : Int)
  | postgresResultLogs (uuid env : String) (secondsBack : Int)
  | postgresQueryLogs (name : String)
  | HeaderSet (key value : String)
  | WriteHeader (code : Nat)
  | Write (body : String)
  deriving DecidableEq, Repr

/-- The collaborators of the handlers that live outside this directory, over a
backing-store state `σ`: every store read takes the state and returns the state it
leaves, a Go `error` is its message. -/
structure Env (σ : Type) where
  /-- `queriesmgr.GetCarves(target)`. -/
  GetCarves : String → σ → Except String (List Query) × σ
  /-- `carvesmgr.GetByQuery(name)`. -/
  GetByQuery : String → σ → Except String (List CarveRecord) × σ
  /-- `envs.Exists(env)`. -/
  Exists : String → σ → Bool × σ
  /-- `postgresStatusLogs(uuid, env, secondsBack)`. -/
  postgresStatusLogs : String → String → Int → σ → Except String (List StatusLogEntry) × σ
  /-- `postgresResultLogs(uuid, env, secondsBack)`. -/
  postgresResultLogs : String → String → Int → σ → Except String (List ResultLogEntry) × σ
  /-- `postgresQueryLogs(name)`. -/
  postgresQueryLogs : String → σ → Except String (List QueryLogEntry) × σ
  /-- `pastTimeAgo(t)`, at the clock reading of the request. -/
  pastTimeAgo : Time → String
  /-- `pastTimestamp(t)`. -/
  pastTimestamp : Time → String
  /-- `queries.StatusActive`. -/
  StatusActive : String
  /-- `queries.StatusComplete`. -/
  StatusComplete : String
  /-- `carves.StatusQueried`. -/
  StatusQueried : String
  /-- `JSONApplicationUTF8`. -/
  JSONApplicationUTF8 : String
  /-- `json.Marshal` on a `ReturnedCarves`. -/
  marshalCarves : ReturnedCarves → Except String String
  /-- `json.Marshal` on a `ReturnedLogs`. -/
  marshalLogs : ReturnedLogs → Except String String
  /-- `json.Marshal` on a `ReturnedQueryLogs`. -/
  marshalQueryLogs : ReturnedQueryLogs → Except String String

/-- What a handler leaves behind: its trace and the store state. -/
structure Outcome (σ : Type) where
  trace : List Event
  store : σ

/-- The bodies written on the `http.ResponseWriter`, in order. -/
def writes : List Event → List String
  | [] => []
  | .Write body :: t => body :: writes t
  | _ :: t => writes t

/-- Whether an event is a read of a backing store behind the handlers
(`queriesmgr`, `carvesmgr`, the postgres log tables). -/
def Event.isStorageRead : Event → Bool
  | .GetCarves _ => true
  | .GetByQuery _ => true
  | .postgresStatusLogs _ _ _ => true
  | .postgresResultLogs _ _ _ => true
  | .postgresQueryLogs _ => true
  | _ => false

/-- The metric increments of a trace, in order. -/
def metrics : List Event → List Metric
  | [] => []
  | .incMetric m :: t => m :: metrics t
  | _ :: t => metrics t

/-- The tail every successful handler ends with: count the success, set the content
type, write the status line and the body. -/
def respond {σ : Type} (E : Env σ) (body : String) : List Event :=
  [.incMetric .metricAdminOK, .HeaderSet "Content-Type" E.JSONApplicationUTF8,
   .WriteHeader StatusOK, .Write body]

/-! ## `jsonCarvesHandler` -/

/-- The events every handler starts with: `incMetric(metricAdminReq)` and
`utils.DebugHTTPDump`. -/
def preamble : List Event :=
  [.incMetric .metricAdminReq, .DebugHTTPDump]

/-- The status chosen in the loop body of `jsonCarvesHandler` for a query `q` whose
carves are `c`. -/
def carveStatus {σ : Type} (E : Env σ) (q : Query) (c : List CarveRecord) : String :=
  let status := E.StatusActive
  let status := if c.length > 0 then E.StatusQueried else status
  let status := if q.Completed then E.StatusComplete else status
  status

/-- The record `_c` built in the loop body of `jsonCarvesHandler` for a query `q`
whose carves are `c`. `Checkbox` is not assigned and keeps its zero value. -/
def carveEntry {σ : Type} (E : Env σ) (q : Query) (c : List CarveRecord) : CarveJSON :=
  let status := carveStatus E q c
  let progress : CarveProgress := []
  let progress := progress.set "total" q.Expected
  let progress := progress.set "completed" q.Executions
  let data : CarveData := []
  let data := data.set "path" q.Path
  let data := data.set "name" q.Name
  { Checkbox := ""
    Name := q.Name
    Creator := q.Creator
    Path := data
    Created := { Display := E.pastTimeAgo q.CreatedAt, Timestamp := E.pastTimestamp q.CreatedAt }
    Status := status
    Progress := progress }

/-- State of the `for _, q := range qs` loop of `jsonCarvesHandler`: the slice
`cJSON` built so far, the events so far and the store state. -/
structure CarvesLoop (σ : Type) where
  cJSON : List CarveJSON
  trace : List Event
  store : σ

/-- The loop `for _, q := range qs` of `jsonCarvesHandler`: a failed
`carvesmgr.GetByQuery` logs a line and continues with the next query, a successful
one appends the record of the query to `cJSON`. -/
def carvesLoop {σ : Type} (E : Env σ) : List Query → CarvesLoop σ → CarvesLoop σ
  | [], st => st
  | q :: qs, st =>
    match E.GetByQuery q.Name st.store with
    | (.error err, s) =>
      carvesLoop E qs
        { st with trace := st.trace ++ [.GetByQuery q.Name, .log ("error getting carves " ++ err)]
                  store := s }
    | (.ok c, s) =>
      carvesLoop E qs
        { cJSON := st.cJSON ++ [carveEntry E q c]
          trace := st.trace ++ [.GetByQuery q.Name]
          store := s }

/-- Handler for JSON carves by target. -/
def jsonCarvesHandler {σ : Type} (E : Env σ) (r : Request) (s : σ) : Outcome σ :=
  match r.vars.lookup "target" with
  | none =>
    ⟨preamble ++ [.incMetric .metricAdminErr, .log "error getting target"], s⟩
  | some target =>
    if ! CarvesTargets.index target then
      ⟨preamble ++ [.incMetric .metricAdminErr, .log ("invalid target " ++ target)], s⟩
    else
      match E.GetCarves target s with
      | (.error err, s1) =>
        ⟨preamble ++ [.GetCarves target, .incMetric .metricAdminErr,
          .log ("error getting query carves " ++ err)], s1⟩
      | (.ok qs, s1) =>
        let st := carvesLoop E qs ⟨[], preamble ++ [.GetCarves target], s1⟩
        let returned : ReturnedCarves := { Data := st.cJSON }
        match E.marshalCarves returned with
        | .error err =>
          ⟨st.trace ++ [.incMetric .metricAdminErr, .log ("error serializing JSON " ++ err)],
            st.store⟩
        | .ok returnedJSON => ⟨st.trace ++ respond E returnedJSON, st.store⟩

/-! ## `jsonLogsHandler` and `jsonQueryLogsHandler` -/

/-- The window of `jsonLogsHandler`: `sixHours` unless the `seconds` parameter is
present and its first value parses. -/
def secondsBack (r : Request) : Int :=
  let secondsBack := sixHours
  match r.query.lookup "seconds" with
  | none => secondsBack
  | some seconds =>
    match ParseInt seconds.first with
    | .ok s => s
    | .error _ => secondsBack

/-- The entry `_l` built for one status log row. -/
def statusEntry {σ : Type} (E : Env σ) (s : StatusLogEntry) : LogJSON :=
  let _c : CreationTimes :=
    { Display := E.pastTimeAgo s.CreatedAt, Timestamp := E.pastTimestamp s.CreatedAt }
  { Created := _c, First := s.Message, Second := s.Severity }

/-- The entry `_l` built for one result log row. -/
def resultEntry {σ : Type} (E : Env σ) (r : ResultLogEntry) : LogJSON :=
  { Created := { Display := E.pastTimeAgo r.CreatedAt, Timestamp := E.pastTimestamp r.CreatedAt }
    First := r.Name
    Second := string r.Columns }

/-- The entry `_l` built for one query log row. -/
def queryLogEntry {σ : Type} (E : Env σ) (q : QueryLogEntry) : QueryLogJSON :=
  let _c : CreationTimes :=
    { Display := E.pastTimeAgo q.CreatedAt, Timestamp := E.pastTimestamp q.CreatedAt }
  { Created := _c, Data := string q.Data }

/-- A loop `for _, x := range rows { out = append(out, f x) }`. -/
def appendEach {α β : Type} (f : α → β) : List α → List β → List β
  | [], out => out
  | x :: rows, out => appendEach f rows (out ++ [f x])

/-- The end of `jsonLogsHandler`: serialize `logJSON` and write it. -/
def finishLogs {σ : Type} (E : Env σ) (trace : List Event) (logJSON : List LogJSON)
    (s : σ) : Outcome σ :=
  let returned : ReturnedLogs := { Data := logJSON }
  match E.marshalLogs returned with
  | .error err =>
    ⟨trace ++ [.incMetric .metricAdminErr, .log ("error serializing JSON " ++ err)], s⟩
  | .ok returnedJSON => ⟨trace ++ respond E returnedJSON, s⟩

/-- Handler GET requests for JSON status/result logs by node and environment. -/
def jsonLogsHandler {σ : Type} (E : Env σ) (r : Request) (s : σ) : Outcome σ :=
  match r.vars.lookup "type" with
  | none =>
    ⟨preamble ++ [.incMetric .metricAdminErr, .log "error getting log type"], s⟩
  | some logType =>
    if ! LogTypes.index logType then
      ⟨preamble ++ [.incMetric .metricAdminErr, .log ("invalid log type " ++ logType)], s⟩
    else
      match r.vars.lookup "environment" with
      | none =>
        ⟨preamble ++ [.incMetric .metricAdminErr, .log "environment is missing"], s⟩
      | some env =>
        match E.Exists env s with
        | (false, s1) =>
          ⟨preamble ++ [.Exists env, .incMetric .metricAdminErr,
            .log ("error unknown environment (" ++ env ++ ")")], s1⟩
        | (true, s1) =>
          match r.vars.lookup "uuid" with
          | none =>
            ⟨preamble ++ [.Exists env, .incMetric .metricAdminErr, .log "error getting UUID"], s1⟩
          | some UUID =>
            let secondsBack := secondsBack r
            let logJSON : List LogJSON := []
            if logType = "status" then
              match E.postgresStatusLogs UUID env secondsBack s1 with
              | (.error err, s2) =>
                ⟨preamble ++ [.Exists env, .postgresStatusLogs UUID env secondsBack,
                  .incMetric .metricAdminErr, .log ("error getting logs " ++ err)], s2⟩
              | (.ok statusLogs, s2) =>
                finishLogs E
                  (preamble ++ [.Exists env, .postgresStatusLogs UUID env secondsBack])
                  (appendEach (statusEntry E) statusLogs logJSON) s2
            else if logType = "result" then
              match E.postgresResultLogs UUID env secondsBack s1 with
              | (.error err, s2) =>
                ⟨preamble ++ [.Exists env, .postgresResultLogs UUID env secondsBack,
                  .incMetric .metricAdminErr, .log ("error getting logs " ++ err)], s2⟩
              | (.ok resultLogs, s2) =>
                finishLogs E
                  (preamble ++ [.Exists env, .postgresResultLogs UUID env secondsBack])
                  (appendEach (resultEntry E) resultLogs logJSON) s2
            else
              finishLogs E (preamble ++ [.Exists env]) logJSON s1

/-- Handler for JSON query logs by query name. -/
def jsonQueryLogsHandler {σ : Type} (E : Env σ) (r : Request) (s : σ) : Outcome σ :=
  match r.vars.lookup "name" with
  | none =>
    ⟨preamble ++ [.incMetric .metricAdminErr, .log "error getting name"], s⟩
  | some name =>
    match E.postgresQueryLogs name s with
    | (.error err, s1) =>
      ⟨preamble ++ [.postgresQueryLogs name, .incMetric .metricAdminErr,
        .log ("error getting logs " ++ err)], s1⟩
    | (.ok queryLogs, s1) =>
      let queryLogJSON := appendEach (queryLogEntry E) queryLogs []
      let returned : ReturnedQueryLogs := { Data := queryLogJSON }
      match E.marshalQueryLogs returned with
      | .error err =>
        ⟨preamble ++ [.postgresQueryLogs name, .incMetric .metricAdminErr,
          .log ("error serializing JSON " ++ err)], s1⟩
      | .ok returnedJSON => ⟨preamble ++ [.postgresQueryLogs name] ++ respond E returnedJSON, s1⟩

/-! ## Reference functions for the statements -/

/-- The result of each `carvesmgr.GetByQuery` call made by the loop over the fetched
queries, paired with its query, in fetch order, from the store state `s`. -/
def lookups {σ : Type} (E : Env σ) :
    List Query → σ → List (Query × Except String (List CarveRecord))
  | [], _ => []
  | q :: qs, s => (q, (E.GetByQuery q.Name s).1) :: lookups E qs (E.GetByQuery q.Name s).2

/-- The fetched queries whose lookup succeeded, each with the carves found, in fetch
order. -/
def succeeded {σ : Type} (E : Env σ) (qs : List Query) (s : σ) :
    List (Query × List CarveRecord) :=
  (lookups E qs s).filterMap fun p =>
    match p.2 with
    | .ok c => some (p.1, c)
    | .error _ => none

/-- The number of fetched queries whose lookup failed. -/
def skipped {σ : Type} (E : Env σ) (qs : List Query) (s : σ) : Nat :=
  ((lookups E qs s).filter fun p =>
    match p.2 with
    | .ok _ => false
    | .error _ => true).length

/-- The lines written with `log.Printf` or `log.Println`, in order. -/
def logLines : List Event → List String
  | [] => []
  | .log line :: t => line :: logLines t
  | _ :: t => logLines t

/-- The `Data` serialized by `jsonCarvesHandler` once the queries `qs` are fetched:
one record per query whose lookup succeeded, in fetch order, none for a query whose
lookup failed. -/
def survivingRecords {σ : Type} (E : Env σ) (qs : List Query) (s : σ) : List CarveJSON :=
  (lookups E qs s).filterMap fun p =>
    match p.2 with
    | .ok c => some (carveEntry E p.1 c)
    | .error _ => none

/-- The log line of each failed lookup, in fetch order. -/
def skipLines {σ : Type} (E : Env σ) (qs : List Query) (s : σ) : List String :=
  (lookups E qs s).filterMap fun p =>
    match p.2 with
    | .ok _ => none
    | .error err => some ("error getting carves " ++ err)

/-! ## A sample deployment for concrete runs -/

/-- Carve query of spec scenario A: ten expected nodes, four executions, not completed. -/
def q1 : Query :=
  { Name := "q1", Creator := "alice", Path := "/etc/hosts", CreatedAt := 100,
    Completed := false, Expected := 10, Executions := 4 }

/-- The query of scenario B: `q1` once completed. -/
def q1done : Query := { q1 with Completed := true }

/-- A second carve query, whose carve lookup fails in `sampleEnv`. -/
def q2 : Query :=
  { Name := "q2", Creator := "bob", Path := "/tmp/x", CreatedAt := 200,
    Completed := false, Expected := 0, Executions := 3 }

/-- A sample set of collaborators over a store state that counts the reads made.
On a fresh store (state `0`) target `all` lists `q1, q2`, target `active` lists `q2`
and any other target lists nothing; on a used store the listing fails. `q1` has two
carve records and the lookup of any other query fails; the only environment is
`dev`; node `n1` has two status rows and one result row. Serialization renders one
`*` per entry and cannot fail. -/
def sampleEnv : Env Nat where
  GetCarves := fun target n =>
    (if n ≠ 0 then .error "connection lost"
     else if target = "all" then .ok [q1, q2]
     else if target = "active" then .ok [q2]
     else .ok [], n + 1)
  GetByQuery := fun name n =>
    (if name = "q1" then .ok [⟨"q1"⟩, ⟨"q1"⟩] else .error "db down", n + 1)
  Exists := fun env n => (env = "dev", n + 1)
  postgresStatusLogs := fun uuid _ _ n =>
    (if uuid = "n1" then
      .ok [⟨"n1", "dev", 10, "started", "info"⟩, ⟨"n1", "dev", 5, "stopped", "warn"⟩]
     else .error "no rows", n + 1)
  postgresResultLogs := fun uuid _ _ n =>
    (if uuid = "n1" then .ok [⟨"n1", "dev", 7, "uptime", "\x7b\x7d"⟩] else .error "no rows", n + 1)
  postgresQueryLogs := fun name n =>
    (if name = "q1" then .ok [⟨"q1", 3, "a"⟩, ⟨"q1", 1, "b"⟩] else .error "no rows", n + 1)
  pastTimeAgo := fun _ => "ago"
  pastTimestamp := fun _ => "ts"
  StatusActive := "ACTIVE"
  StatusComplete := "COMPLETE"
  StatusQueried := "QUERIED"
  JSONApplicationUTF8 := "application/json; charset=UTF-8"
  marshalCarves := fun r => .ok (String.mk (List.replicate r.Data.length '*'))
  marshalLogs := fun r => .ok (String.mk (List.replicate r.Data.length '*'))
  marshalQueryLogs := fun r => .ok (String.mk (List.replicate r.Data.length '*'))

/-! ## `loadOsqueryTables` (`cmd/admin/main.go`) -/

/-- Go `OsqueryTable`. -/
structure OsqueryTable where
  Name : String
  URL : String
  Platforms : List String
  Filter : String
  deriving DecidableEq, Repr

/-- `unicode.IsSpace` (Go standard library): the Latin-1 spaces `\t \n \v \f \r`,
space, U+0085 and U+00A0, and beyond Latin-1 the code points of the Unicode property
`White_Space`. -/
def IsSpace (c : Char) : Bool :=
  let r := c.toNat
  if r ≤ 0xFF then
    r = 0x09 ∨ r = 0x0A ∨ r = 0x0B ∨ r = 0x0C ∨ r = 0x0D ∨ r = 0x20 ∨ r = 0x85 ∨ r = 0xA0
  else
    r = 0x1680 ∨ (0x2000 ≤ r ∧ r ≤ 0x200A) ∨ r = 0x2028 ∨ r = 0x2029 ∨ r = 0x202F ∨
      r = 0x205F ∨ r = 0x3000

/-- `strings.TrimSpace` (Go standard library): the string without its leading and
trailing characters that satisfy `unicode.IsSpace`. The strings it is applied to are
built from decoded JSON strings, which are valid UTF-8. -/
def TrimSpace (s : String) : String :=
  String.mk ((s.toList.dropWhile IsSpace).rdropWhile IsSpace)

/-- The inner loop of `loadOsqueryTables`: `filter := ""`, then
`filter += " filter-" + p` for every platform `p` in order. -/
def platformsFilter (Platforms : List String) : String :=
  Platforms.foldl (fun filter p => filter ++ (" filter-" ++ p)) ""

/-- The loop `for i, t := range osqueryTables` of `loadOsqueryTables`: iteration `i`
reads the table `t` at index `i` and assigns `osqueryTables[i].Filter`. -/
def addFilters (osqueryTables : List OsqueryTable) : List OsqueryTable :=
  (List.range osqueryTables.length).foldl
    (fun tables i =>
      match tables[i]? with
      | none => tables
      | some t =>
        let filter := platformsFilter t.Platforms
        tables.set i { t with Filter := TrimSpace filter })
    osqueryTables

/-- What `loadOsqueryTables` meets outside the program: the tables file and the JSON
decoder. -/
structure TablesFile where
  /-- The error of `os.Open(osqueryTablesFile)`, if any. -/
  Open : Option String
  /-- The bytes returned by `ioutil.ReadAll(jsonFile)`; its error is dropped. -/
  ReadAll : RawMessage
  /-- `json.Unmarshal(byteValue, &osqueryTables)`: the error, if any, and the value
  left in `osqueryTables`. -/
  Unmarshal : RawMessage → List OsqueryTable → Option String × List OsqueryTable
  /-- The error of the deferred `jsonFile.Close()`, if any. -/
  Close : Option String

/-- How a call of `loadOsqueryTables` ends: it returns an error or `nil` with the
global `osqueryTables` as left, or `log.Fatalf` ends the process. -/
inductive LoadResult where
  | returned (err : Option String) (osqueryTables : List OsqueryTable)
  | fatal (line : String)
  deriving DecidableEq, Repr

/-- The deferred function of `loadOsqueryTables`: a failing `jsonFile.Close()` ends
the process with `log.Fatalf`, otherwise the function returns as it was about to. -/
def deferredClose (F : TablesFile) (res : LoadResult) : LoadResult :=
  match F.Close with
  | some err => .fatal ("Failed to close tables file " ++ err)
  | none => res

/-- Function to load the JSON data for osquery tables. -/
def loadOsqueryTables (F : TablesFile) (osqueryTables : List OsqueryTable) : LoadResult :=
  match F.Open with
  | some err => .returned (some err) osqueryTables
  | none =>
    let byteValue := F.ReadAll
    match F.Unmarshal byteValue osqueryTables with
    | (some err, osqueryTables) => deferredClose F (.returned (some err) osqueryTables)
    | (none, osqueryTables) => deferredClose F (.returned none (addFilters osqueryTables))

/-- Whether the last character of a platform name is a space for `unicode.IsSpace`
(an empty name has none). -/
def endsInSpace (p : String) : Bool :=
  match p.toList.getLast? with
  | some c => IsSpace c
  | none => false

/-- A tables file whose JSON holds three tables: `processes` on two platforms, `time`
on none (with a `Filter` key in the JSON, which the decoder stores), and `users` on a
platform whose name ends in a space. -/
def sampleTablesFile : TablesFile where
  Open := none
  ReadAll := "[...]"
  Unmarshal := fun _ _ =>
    (none,
      [⟨"processes", "https://osquery.io/schema/#processes", ["darwin", "linux"], ""⟩,
       ⟨"time", "https://osquery.io/schema/#time", [], "stale"⟩,
       ⟨"users", "https://osquery.io/schema/#users", ["windows", "freebsd "], ""⟩])
  Close := none

/-! ## Basic facts -/

theorem writes_append (a b : List Event) : writes (a ++ b) = writes a ++ writes b := by
  induction a with
  | nil => rfl
  | cons e t ih => cases e <;> simp [writes, ih]

theorem metrics_append (a b : List Event) : metrics (a ++ b) = metrics a ++ metrics b := by
  induction a with
  | nil => rfl
  | cons e t ih => cases e <;> simp [metrics, ih]

theorem lookups_map_fst {σ : Type} (E : Env σ) (qs : List Query) (s : σ) :
    (lookups E qs s).map Prod.fst = qs := by
  induction qs generalizing s with
  | nil => rfl
  | cons q qs ih => simp [lookups, ih]

theorem carvesLoop_cJSON {σ : Type} (E : Env σ) (qs : List Query) (st : CarvesLoop σ) :
    (carvesLoop E qs st).cJSON
      = st.cJSON ++ (succeeded E qs st.store).map (fun p => carveEntry E p.1 p.2) := by
  induction qs generalizing st with
  | nil => simp [carvesLoop, succeeded, lookups]
  | cons q qs ih =>
    rcases h : E.GetByQuery q.Name st.store with ⟨res, s1⟩
    cases res with
    | error err =>
      simp only [carvesLoop, h, ih, succeeded, lookups, List.filterMap_cons]
    | ok c =>
      simp only [carvesLoop, h, ih, succeeded, lookups, List.filterMap_cons, List.map_cons,
        List.append_assoc, List.singleton_append]

theorem index_CarvesTargets (target : String) :
    CarvesTargets.index target = true
      ↔ target = "all" ∨ target = "active" ∨ target = "completed" := by
  by_cases h1 : target = "all"
  · subst h1; simp [GoMap.index, CarvesTargets, List.lookup]
  · by_cases h2 : target = "active"
    · subst h2; simp [GoMap.index, CarvesTargets, List.lookup]
    · by_cases h3 : target = "completed"
      · subst h3; simp [GoMap.index, CarvesTargets, List.lookup]
      · have e1 : (target == "all") = false := beq_eq_false_iff_ne.mpr h1
        have e2 : (target == "active") = false := beq_eq_false_iff_ne.mpr h2
        have e3 : (target == "completed") = false := beq_eq_false_iff_ne.mpr h3
        simp [GoMap.index, CarvesTargets, List.lookup, e1, e2, e3, h1, h2, h3]

theorem jsonCarvesHandler_invalid {σ : Type} (E : Env σ) (r : Request) (s : σ)
    (target : String) (ht : r.vars.lookup "target" = some target)
    (hv : CarvesTargets.index target = false) :
    jsonCarvesHandler E r s
      = ⟨preamble ++ [.incMetric .metricAdminErr, .log ("invalid target " ++ target)], s⟩ := by
  simp [jsonCarvesHandler, ht, hv]

/-! ## Carve listing: status, progress and target check -/

/-- C1: in the loop of `jsonCarvesHandler` the records appended to `cJSON` (the `Data`
the handler serializes) correspond one to one, in order, to the fetched queries whose
carve lookup succeeded, and the `Status` of each is decided by the `Completed` flag of
its query and the number of carves found alone: `queries.StatusComplete` when
`Completed` holds, whatever the number is, otherwise `carves.StatusQueried` when there
is at least one carve and `queries.StatusActive` when there is none. -/
theorem carve_status_by_completed_and_count {σ : Type} (E : Env σ) (qs : List Query)
    (tr : List Event) (s : σ) :
    List.Forall₂
      (fun (p : Query × List CarveRecord) (e : CarveJSON) =>
        e.Status =
          if p.1.Completed = true then E.StatusComplete
          else if p.2.length > 0 then E.StatusQueried
          else E.StatusActive)
      (succeeded E qs s) (carvesLoop E qs ⟨[], tr, s⟩).cJSON := by
  rw [carvesLoop_cJSON]
  simp only [List.nil_append, List.forall₂_map_right_iff, List.forall₂_same]
  intro p _
  simp only [carveEntry, carveStatus]

/-- C2: every record appended to `cJSON` by the loop of `jsonCarvesHandler` has a
`Progress` map with exactly the keys `total` and `completed`, holding the `Expected`
and `Executions` of its query unchanged, for all integer values of the two (also
`Executions > Expected` and `Expected = 0`). -/
theorem carve_progress_passthrough {σ : Type} (E : Env σ) (qs : List Query)
    (tr : List Event) (s : σ) :
    List.Forall₂
      (fun (p : Query × List CarveRecord) (e : CarveJSON) =>
        e.Progress.keys = ["total", "completed"] ∧
        ∀ k : String, e.Progress.lookup k =
          if k = "total" then some p.1.Expected
          else if k = "completed" then some p.1.Executions
          else none)
      (succeeded E qs s) (carvesLoop E qs ⟨[], tr, s⟩).cJSON := by
  rw [carvesLoop_cJSON]
  simp only [List.nil_append, List.forall₂_map_right_iff, List.forall₂_same]
  intro p _
  refine ⟨by simp [carveEntry, GoMap.set, GoMap.keys], fun k => ?_⟩
  by_cases h1 : k = "total"
  · subst h1; simp [carveEntry, GoMap.set, List.lookup]
  · by_cases h2 : k = "completed"
    · subst h2; simp [carveEntry, GoMap.set, List.lookup]
    · have e1 : (k == "total") = false := beq_eq_false_iff_ne.mpr h1
      have e2 : (k == "completed") = false := beq_eq_false_iff_ne.mpr h2
      simp [carveEntry, GoMap.set, List.lookup, e1, e2, h1, h2]

/-- Scenarios A and B of the spec on `sampleEnv`: `q1` with two carve records is
`QUERIED` with progress `total = 10`, `completed = 4`; once completed it is
`COMPLETE`, with carve records or without; `q2`, with no carve record, is `ACTIVE`
and its progress keeps `total = 0`, `completed = 3`. The listing of `q1, q2`, where
the lookup of `q2` fails, holds the record of `q1` alone. -/
theorem carve_scenarios :
    (carveEntry sampleEnv q1 [⟨"q1"⟩, ⟨"q1"⟩]).Status = "QUERIED" ∧
    (carveEntry sampleEnv q1 [⟨"q1"⟩, ⟨"q1"⟩]).Progress = [("total", 10), ("completed", 4)] ∧
    (carveEntry sampleEnv q1done [⟨"q1"⟩, ⟨"q1"⟩]).Status = "COMPLETE" ∧
    (carveEntry sampleEnv q1done []).Status = "COMPLETE" ∧
    (carveEntry sampleEnv q2 []).Status = "ACTIVE" ∧
    (carveEntry sampleEnv q2 []).Progress = [("total", 0), ("completed", 3)] ∧
    (carvesLoop sampleEnv [q1, q2] ⟨[], [], 1⟩).cJSON
      = [carveEntry sampleEnv q1 [⟨"q1"⟩, ⟨"q1"⟩]] := by
  decide

/-- C3: the target check of `jsonCarvesHandler` accepts a target exactly when it is
one of the strings `all`, `active`, `completed`; for any other target the handler
stops after counting the error and logging it: no event of its trace is a read of a
backing store (`queriesmgr.GetCarves`, `carvesmgr.GetByQuery`), nothing is written
on the response and the store state is untouched. -/
theorem carves_target_closed_set (target : String) :
    (CarvesTargets.index target = true
      ↔ target = "all" ∨ target = "active" ∨ target = "completed") ∧
    ∀ (σ : Type) (E : Env σ) (r : Request) (s : σ),
      r.vars.lookup "target" = some target →
      CarvesTargets.index target = false →
      (∀ e ∈ (jsonCarvesHandler E r s).trace, e.isStorageRead = false) ∧
      writes (jsonCarvesHandler E r s).trace = [] ∧
      (jsonCarvesHandler E r s).store = s := by
  refine ⟨index_CarvesTargets target, fun σ E r s ht hv => ?_⟩
  rw [jsonCarvesHandler_invalid E r s target ht hv]
  refine ⟨?_, rfl, rfl⟩
  intro e he
  simp only [preamble, List.cons_append, List.nil_append, List.mem_cons,
    List.mem_singleton, List.not_mem_nil, or_false] at he
  rcases he with h | h | h | h <;> subst h <;> rfl

/-- Witness of C3 at the target `bogus`: it is rejected, and the run on `sampleEnv`
reads no store and writes no response. -/
theorem carves_target_closed_set_witness :
    CarvesTargets.index "bogus" = false ∧
    (∀ e ∈ (jsonCarvesHandler sampleEnv ⟨[("target", "bogus")], []⟩ 0).trace,
      e.isStorageRead = false) ∧
    writes (jsonCarvesHandler sampleEnv ⟨[("target", "bogus")], []⟩ 0).trace = [] ∧
    (jsonCarvesHandler sampleEnv ⟨[("target", "bogus")], []⟩ 0).store = 0 :=
  ⟨by decide,
   (carves_target_closed_set "bogus").2 Nat sampleEnv ⟨[("target", "bogus")], []⟩ 0
     (by decide) (by decide)⟩

/-! ## Node logs: log type, environment and window -/

theorem index_LogTypes (logType : String) :
    LogTypes.index logType = true ↔ logType = "result" ∨ logType = "status" := by
  by_cases h1 : logType = "result"
  · subst h1; simp [GoMap.index, LogTypes, List.lookup]
  · by_cases h2 : logType = "status"
    · subst h2; simp [GoMap.index, LogTypes, List.lookup]
    · have e1 : (logType == "result") = false := beq_eq_false_iff_ne.mpr h1
      have e2 : (logType == "status") = false := beq_eq_false_iff_ne.mpr h2
      simp [GoMap.index, LogTypes, List.lookup, e1, e2, h1, h2]

/-- C4 (as stated, refuted): on `sampleEnv`, a request for the log type `bogus`, which
is neither `status` nor `result`, with the known environment `dev` and a node id
present, gets no response: nothing is written and the request is counted as an
error. -/
theorem logs_unknown_type_counterexample :
    "bogus" ≠ "status" ∧ "bogus" ≠ "result" ∧
    (sampleEnv.Exists "dev" 0).1 = true ∧
    writes (jsonLogsHandler sampleEnv
      ⟨[("type", "bogus"), ("environment", "dev"), ("uuid", "n1")], []⟩ 0).trace = [] ∧
    metrics (jsonLogsHandler sampleEnv
      ⟨[("type", "bogus"), ("environment", "dev"), ("uuid", "n1")], []⟩ 0).trace
      = [.metricAdminReq, .metricAdminErr] := by
  decide

/-- C4 (amended): a request to `jsonLogsHandler` whose log type is neither `status`
nor `result` fails the `LogTypes` check, whatever the environment and node id are:
the handler counts an error, logs `invalid log type`, and stops, so no store is read
(the environment registry included), nothing is written and the store state is
untouched. -/
theorem logs_unknown_type_rejected {σ : Type} (E : Env σ) (r : Request) (s : σ)
    (logType : String) (ht : r.vars.lookup "type" = some logType)
    (h1 : logType ≠ "status") (h2 : logType ≠ "result") :
    (jsonLogsHandler E r s).trace
      = preamble ++ [.incMetric .metricAdminErr, .log ("invalid log type " ++ logType)] ∧
    writes (jsonLogsHandler E r s).trace = [] ∧
    (jsonLogsHandler E r s).store = s := by
  have hv : LogTypes.index logType = false := by
    rw [Bool.eq_false_iff, Ne, index_LogTypes]
    rintro (h | h)
    · exact h2 h
    · exact h1 h
  have : jsonLogsHandler E r s
      = ⟨preamble ++ [.incMetric .metricAdminErr, .log ("invalid log type " ++ logType)], s⟩ := by
    simp [jsonLogsHandler, ht, hv]
  rw [this]
  exact ⟨rfl, rfl, rfl⟩

/-- Witness of C4 (amended) at the log type `bogus` on `sampleEnv`. -/
theorem logs_unknown_type_rejected_witness :
    (jsonLogsHandler sampleEnv
      ⟨[("type", "bogus"), ("environment", "dev"), ("uuid", "n1")], []⟩ 0).trace
      = preamble ++ [.incMetric .metricAdminErr, .log ("invalid log type " ++ "bogus")] ∧
    writes (jsonLogsHandler sampleEnv
      ⟨[("type", "bogus"), ("environment", "dev"), ("uuid", "n1")], []⟩ 0).trace = [] ∧
    (jsonLogsHandler sampleEnv
      ⟨[("type", "bogus"), ("environment", "dev"), ("uuid", "n1")], []⟩ 0).store = 0 :=
  logs_unknown_type_rejected sampleEnv
    ⟨[("type", "bogus"), ("environment", "dev"), ("uuid", "n1")], []⟩ 0 "bogus"
    (by decide) (by decide) (by decide)

/-- C5: when the environment of the request is not known to the registry
(`envs.Exists` answers false), `jsonLogsHandler` reads no log store (no call of
`postgresStatusLogs` or `postgresResultLogs`) and writes nothing on the response,
whatever the log type, the node id and the `seconds` parameter are. -/
theorem logs_unknown_environment_aborts {σ : Type} (E : Env σ) (r : Request) (s : σ)
    (env : String) (he : r.vars.lookup "environment" = some env)
    (hx : (E.Exists env s).1 = false) :
    (∀ e ∈ (jsonLogsHandler E r s).trace, e.isStorageRead = false) ∧
    writes (jsonLogsHandler E r s).trace = [] := by
  unfold jsonLogsHandler
  rcases hex : E.Exists env s with ⟨b, s1⟩
  rw [hex] at hx
  simp only at hx
  subst hx
  cases ht : r.vars.lookup "type" with
  | none =>
    refine ⟨?_, rfl⟩
    intro e hm
    simp only [preamble, List.cons_append, List.nil_append, List.mem_cons,
      List.mem_singleton, List.not_mem_nil, or_false] at hm
    rcases hm with h | h | h | h <;> subst h <;> rfl
  | some logType =>
    by_cases hv : LogTypes.index logType = true
    · simp only [hv, Bool.not_true, Bool.false_eq_true, if_false, he, hex]
      refine ⟨?_, rfl⟩
      intro e hm
      simp only [preamble, List.cons_append, List.nil_append, List.mem_cons,
        List.mem_singleton, List.not_mem_nil, or_false] at hm
      rcases hm with h | h | h | h | h <;> subst h <;> rfl
    · simp only [hv, Bool.not_false, if_true]
      refine ⟨?_, rfl⟩
      intro e hm
      simp only [preamble, List.cons_append, List.nil_append, List.mem_cons,
        List.mem_singleton, List.not_mem_nil, or_false] at hm
      rcases hm with h | h | h | h <;> subst h <;> rfl

/-- Witness of C5 at the environment `doesnotexist` on `sampleEnv`. -/
theorem logs_unknown_environment_aborts_witness :
    (sampleEnv.Exists "doesnotexist" 0).1 = false ∧
    (∀ e ∈ (jsonLogsHandler sampleEnv
        ⟨[("type", "status"), ("environment", "doesnotexist"), ("uuid", "n1")],
          [("seconds", ⟨"60", []⟩)]⟩ 0).trace, e.isStorageRead = false) ∧
    writes (jsonLogsHandler sampleEnv
        ⟨[("type", "status"), ("environment", "doesnotexist"), ("uuid", "n1")],
          [("seconds", ⟨"60", []⟩)]⟩ 0).trace = [] :=
  ⟨by decide,
   logs_unknown_environment_aborts sampleEnv
     ⟨[("type", "status"), ("environment", "doesnotexist"), ("uuid", "n1")],
       [("seconds", ⟨"60", []⟩)]⟩ 0 "doesnotexist" (by decide) (by decide)⟩

/-- C6: the window of `jsonLogsHandler` is 21600 seconds when the `seconds` parameter
is absent, the same 21600 when it is present and its first value is not accepted by
`strconv.ParseInt(_, 10, 64)`, and exactly `n` when the first value parses to `n`;
and this window is the one passed to the backing store: every `postgresStatusLogs` or
`postgresResultLogs` call in the trace of the handler carries it. -/
theorem logs_window_default (r : Request) :
    (r.query.lookup "seconds" = none → secondsBack r = 21600) ∧
    (∀ (v : Values) (err : String), r.query.lookup "seconds" = some v →
      ParseInt v.first = .error err → secondsBack r = 21600) ∧
    (∀ (v : Values) (n : Int), r.query.lookup "seconds" = some v →
      ParseInt v.first = .ok n → secondsBack r = n) ∧
    ∀ (σ : Type) (E : Env σ) (s : σ) (uuid env : String) (w : Int),
      (Event.postgresStatusLogs uuid env w ∈ (jsonLogsHandler E r s).trace ∨
        Event.postgresResultLogs uuid env w ∈ (jsonLogsHandler E r s).trace) →
      w = secondsBack r := by
  refine ⟨fun h => by simp [secondsBack, h, sixHours],
    fun v err h hp => by simp [secondsBack, h, hp, sixHours],
    fun v n h hp => by simp [secondsBack, h, hp], ?_⟩
  intro σ E s uuid env w
  unfold jsonLogsHandler finishLogs
  cases ht : r.vars.lookup "type" with
  | none => simp [preamble]
  | some logType =>
    by_cases hv : LogTypes.index logType = true
    swap
    · simp [hv, preamble]
    cases he : r.vars.lookup "environment" with
    | none => simp [hv, preamble]
    | some en =>
      rcases hex : E.Exists en s with ⟨b, s1⟩
      cases b with
      | false => simp [hv, hex, preamble]
      | true =>
        cases hu : r.vars.lookup "uuid" with
        | none => simp [hv, hex, preamble]
        | some u =>
          by_cases hs : logType = "status"
          · subst hs
            rcases hst : E.postgresStatusLogs u en (secondsBack r) s1 with ⟨res, s2⟩
            cases res with
            | error err =>
              simp only [hv, hex, hst, preamble]
              simp
            | ok rows =>
              cases hm : E.marshalLogs ⟨appendEach (statusEntry E) rows []⟩ <;>
                simp only [hv, hex, hst, hm, preamble, respond] <;> simp
          · by_cases hr : logType = "result"
            · subst hr
              rcases hst : E.postgresResultLogs u en (secondsBack r) s1 with ⟨res, s2⟩
              cases res with
              | error err =>
                simp only [hv, hex, hst, preamble]
                simp
              | ok rows =>
                cases hm : E.marshalLogs ⟨appendEach (resultEntry E) rows []⟩ <;>
                  simp only [hv, hex, hst, hm, preamble, respond] <;> simp
            · cases hm : E.marshalLogs ⟨[]⟩ <;>
                simp [hv, hex, hs, hr, hm, preamble, respond]

/-- Witness of C6 on `sampleEnv`: without a `seconds` parameter and with
`seconds=abc`, `seconds=` (empty) or `seconds=9223372036854775808` (out of range) the
window is 21600, with `seconds=-42` it is -42, and the status log store is asked for
the window of the request. -/
theorem logs_window_default_witness :
    secondsBack ⟨[], []⟩ = 21600 ∧
    secondsBack ⟨[], [("seconds", ⟨"abc", []⟩)]⟩ = 21600 ∧
    secondsBack ⟨[], [("seconds", ⟨"", ["5"]⟩)]⟩ = 21600 ∧
    secondsBack ⟨[], [("seconds", ⟨"9223372036854775808", []⟩)]⟩ = 21600 ∧
    secondsBack ⟨[], [("seconds", ⟨"-42", []⟩)]⟩ = -42 ∧
    (Event.postgresStatusLogs "n1" "dev" 21600 ∈
      (jsonLogsHandler sampleEnv ⟨[("type", "status"), ("environment", "dev"), ("uuid", "n1")],
        [("seconds", ⟨"abc", []⟩)]⟩ 0).trace ∧
      (21600 : Int) = secondsBack ⟨[("type", "status"), ("environment", "dev"), ("uuid", "n1")],
        [("seconds", ⟨"abc", []⟩)]⟩) :=
  ⟨(logs_window_default ⟨[], []⟩).1 rfl,
   (logs_window_default ⟨[], [("seconds", ⟨"abc", []⟩)]⟩).2.1
      ⟨"abc", []⟩ "invalid syntax" rfl rfl,
   (logs_window_default ⟨[], [("seconds", ⟨"", ["5"]⟩)]⟩).2.1
      ⟨"", ["5"]⟩ "invalid syntax" rfl rfl,
   (logs_window_default ⟨[], [("seconds", ⟨"9223372036854775808", []⟩)]⟩).2.1
      ⟨"9223372036854775808", []⟩ "value out of range" rfl rfl,
   (logs_window_default ⟨[], [("seconds", ⟨"-42", []⟩)]⟩).2.2.1
      ⟨"-42", []⟩ (-42) rfl rfl,
   by decide,
   (logs_window_default ⟨[("type", "status"), ("environment", "dev"), ("uuid", "n1")],
      [("seconds", ⟨"abc", []⟩)]⟩).2.2.2 Nat sampleEnv 0 "n1" "dev" 21600
      (Or.inl (by decide))⟩

/-! ## Carve listing: failed lookups -/

theorem logLines_append (a b : List Event) : logLines (a ++ b) = logLines a ++ logLines b := by
  induction a with
  | nil => rfl
  | cons e t ih => cases e <;> simp [logLines, ih]

theorem survivingRecords_eq {σ : Type} (E : Env σ) (qs : List Query) (s : σ) :
    survivingRecords E qs s = (succeeded E qs s).map (fun p => carveEntry E p.1 p.2) := by
  unfold survivingRecords succeeded
  induction lookups E qs s with
  | nil => rfl
  | cons p t ih =>
    rcases p with ⟨q, res⟩
    cases res <;> simp [List.filterMap_cons, ih]

theorem skipLines_length {σ : Type} (E : Env σ) (qs : List Query) (s : σ) :
    (skipLines E qs s).length = skipped E qs s := by
  unfold skipLines skipped
  induction lookups E qs s with
  | nil => rfl
  | cons p t ih =>
    rcases p with ⟨q, res⟩
    cases res <;> simp [List.filterMap_cons, List.filter_cons, ih]

theorem carvesLoop_trace {σ : Type} (E : Env σ) (qs : List Query) (st : CarvesLoop σ) :
    writes (carvesLoop E qs st).trace = writes st.trace ∧
    metrics (carvesLoop E qs st).trace = metrics st.trace ∧
    logLines (carvesLoop E qs st).trace = logLines st.trace ++ skipLines E qs st.store := by
  induction qs generalizing st with
  | nil => simp [carvesLoop, skipLines, lookups]
  | cons q qs ih =>
    rcases h : E.GetByQuery q.Name st.store with ⟨res, s1⟩
    cases res with
    | error err =>
      simp only [carvesLoop, h, ih, skipLines, lookups, List.filterMap_cons, writes_append,
        metrics_append, logLines_append]
      simp [writes, metrics, logLines]
    | ok c =>
      simp only [carvesLoop, h, ih, skipLines, lookups, List.filterMap_cons, writes_append,
        metrics_append, logLines_append]
      simp [writes, metrics, logLines]

theorem jsonCarvesHandler_fetched {σ : Type} (E : Env σ) (r : Request) (s : σ)
    (target : String) (qs : List Query) (s1 : σ)
    (ht : r.vars.lookup "target" = some target) (hv : CarvesTargets.index target = true)
    (hg : E.GetCarves target s = (.ok qs, s1)) :
    jsonCarvesHandler E r s =
      match E.marshalCarves ⟨survivingRecords E qs s1⟩ with
      | .error err =>
        ⟨(carvesLoop E qs ⟨[], preamble ++ [.GetCarves target], s1⟩).trace
            ++ [.incMetric .metricAdminErr, .log ("error serializing JSON " ++ err)],
          (carvesLoop E qs ⟨[], preamble ++ [.GetCarves target], s1⟩).store⟩
      | .ok returnedJSON =>
        ⟨(carvesLoop E qs ⟨[], preamble ++ [.GetCarves target], s1⟩).trace
            ++ respond E returnedJSON,
          (carvesLoop E qs ⟨[], preamble ++ [.GetCarves target], s1⟩).store⟩ := by
  simp only [jsonCarvesHandler, ht, hv, hg, Bool.not_true, Bool.false_eq_true, if_false,
    carvesLoop_cJSON, List.nil_append, survivingRecords_eq]

theorem jsonCarvesHandler_fetch_failed {σ : Type} (E : Env σ) (r : Request) (s : σ)
    (target err : String) (s1 : σ)
    (ht : r.vars.lookup "target" = some target) (hv : CarvesTargets.index target = true)
    (hg : E.GetCarves target s = (.error err, s1)) :
    jsonCarvesHandler E r s =
      ⟨preamble ++ [.GetCarves target, .incMetric .metricAdminErr,
        .log ("error getting query carves " ++ err)], s1⟩ := by
  simp only [jsonCarvesHandler, ht, hv, hg, Bool.not_true, Bool.false_eq_true, if_false]

theorem writes_jsonCarvesHandler_fetched {σ : Type} (E : Env σ) (r : Request) (s : σ)
    (target : String) (qs : List Query) (s1 : σ)
    (ht : r.vars.lookup "target" = some target) (hv : CarvesTargets.index target = true)
    (hg : E.GetCarves target s = (.ok qs, s1)) :
    writes (jsonCarvesHandler E r s).trace =
      match E.marshalCarves ⟨survivingRecords E qs s1⟩ with
      | .ok body => [body]
      | .error _ => [] := by
  rw [jsonCarvesHandler_fetched E r s target qs s1 ht hv hg]
  cases E.marshalCarves ⟨survivingRecords E qs s1⟩ <;>
    simp [writes_append, (carvesLoop_trace E qs _).1, writes, preamble, respond]

theorem lookups_of_stateless {σ : Type} (E : Env σ)
    (g : String → Except String (List CarveRecord))
    (hg : ∀ (name : String) (s : σ), (E.GetByQuery name s).1 = g name)
    (qs : List Query) (s : σ) :
    lookups E qs s = qs.map (fun q => (q, g q.Name)) := by
  induction qs generalizing s with
  | nil => rfl
  | cons q qs ih => simp [lookups, ih, hg]

/-- C7: once the target is accepted, a failed `carvesmgr.GetByQuery` does not abort
`jsonCarvesHandler`. When `queriesmgr.GetCarves` returns the queries `qs`, the loop
looks up every query once, in fetch order, and the body written is the serialization
of exactly the records of the queries whose lookup succeeded, in that order (none for
a failed lookup), whatever the pattern of failures; the response is written whenever
that serialization succeeds. For a store whose lookups are a function `g` of the
query name this is `qs` filtered by the success of `g`. When the top-level
`queriesmgr.GetCarves` fails, nothing is written. -/
theorem carves_failed_lookup_skips_only_that_query {σ : Type} (E : Env σ) (r : Request)
    (s : σ) (target : String) (ht : r.vars.lookup "target" = some target)
    (hv : CarvesTargets.index target = true) :
    (∀ (qs : List Query) (s1 : σ), E.GetCarves target s = (.ok qs, s1) →
      (lookups E qs s1).map Prod.fst = qs ∧
      writes (jsonCarvesHandler E r s).trace =
        match E.marshalCarves
          ⟨(lookups E qs s1).filterMap fun p =>
            match p.2 with
            | .ok c => some (carveEntry E p.1 c)
            | .error _ => none⟩ with
        | .ok body => [body]
        | .error _ => []) ∧
    (∀ (qs : List Query) (s1 : σ) (g : String → Except String (List CarveRecord)),
      E.GetCarves target s = (.ok qs, s1) →
      (∀ (name : String) (s2 : σ), (E.GetByQuery name s2).1 = g name) →
      writes (jsonCarvesHandler E r s).trace =
        match E.marshalCarves
          ⟨qs.filterMap fun q =>
            match g q.Name with
            | .ok c => some (carveEntry E q c)
            | .error _ => none⟩ with
        | .ok body => [body]
        | .error _ => []) ∧
    (∀ (err : String) (s1 : σ), E.GetCarves target s = (.error err, s1) →
      writes (jsonCarvesHandler E r s).trace = []) := by
  refine ⟨fun qs s1 hg => ⟨lookups_map_fst E qs s1, ?_⟩, fun qs s1 g hg hpure => ?_,
    fun err s1 hg => ?_⟩
  · exact writes_jsonCarvesHandler_fetched E r s target qs s1 ht hv hg
  · rw [writes_jsonCarvesHandler_fetched E r s target qs s1 ht hv hg]
    simp only [survivingRecords, lookups_of_stateless E g hpure, List.filterMap_map]
    rfl
  · rw [jsonCarvesHandler_fetch_failed E r s target err s1 ht hv hg]
    rfl

/-- Witness of C7 on `sampleEnv`: for target `all` the lookup of `q2` fails and the
body written holds the one record of `q1`; on a used store the listing itself fails
and nothing is written. -/
theorem carves_failed_lookup_skips_only_that_query_witness :
    writes (jsonCarvesHandler sampleEnv ⟨[("target", "all")], []⟩ 0).trace = ["*"] ∧
    writes (jsonCarvesHandler sampleEnv ⟨[("target", "all")], []⟩ 1).trace = [] :=
  ⟨((carves_failed_lookup_skips_only_that_query sampleEnv ⟨[("target", "all")], []⟩ 0 "all"
      (by decide) (by decide)).1 [q1, q2] 1 rfl).2,
   (carves_failed_lookup_skips_only_that_query sampleEnv ⟨[("target", "all")], []⟩ 1 "all"
      (by decide) (by decide)).2.2 "connection lost" 2 rfl⟩

/-- C8 (as stated, refuted): on `sampleEnv` the listing of target `active` skips one
query (the lookup of `q2` fails) and the listing of target `completed` skips none,
yet the two runs have the same response and the same metric increments, so no skip
count can be read off the result or the counters of the handler: no function of the
two gives the number of skipped queries on both runs. The runs differ only in the
line that the first one writes to the process log. -/
theorem carves_skip_count_counterexample :
    (skipped sampleEnv [q2] 1 = 1 ∧ skipped sampleEnv [] 1 = 0 ∧
      writes (jsonCarvesHandler sampleEnv ⟨[("target", "active")], []⟩ 0).trace
        = writes (jsonCarvesHandler sampleEnv ⟨[("target", "completed")], []⟩ 0).trace ∧
      metrics (jsonCarvesHandler sampleEnv ⟨[("target", "active")], []⟩ 0).trace
        = metrics (jsonCarvesHandler sampleEnv ⟨[("target", "completed")], []⟩ 0).trace ∧
      metrics (jsonCarvesHandler sampleEnv ⟨[("target", "active")], []⟩ 0).trace
        = [.metricAdminReq, .metricAdminOK] ∧
      logLines (jsonCarvesHandler sampleEnv ⟨[("target", "active")], []⟩ 0).trace
        = ["error getting carves db down"]) ∧
    ¬ ∃ count : List String → List Metric → Nat,
      count (writes (jsonCarvesHandler sampleEnv ⟨[("target", "active")], []⟩ 0).trace)
          (metrics (jsonCarvesHandler sampleEnv ⟨[("target", "active")], []⟩ 0).trace)
        = skipped sampleEnv [q2] 1 ∧
      count (writes (jsonCarvesHandler sampleEnv ⟨[("target", "completed")], []⟩ 0).trace)
          (metrics (jsonCarvesHandler sampleEnv ⟨[("target", "completed")], []⟩ 0).trace)
        = skipped sampleEnv [] 1 := by
  have hfacts :
      skipped sampleEnv [q2] 1 = 1 ∧ skipped sampleEnv [] 1 = 0 ∧
      writes (jsonCarvesHandler sampleEnv ⟨[("target", "active")], []⟩ 0).trace
        = writes (jsonCarvesHandler sampleEnv ⟨[("target", "completed")], []⟩ 0).trace ∧
      metrics (jsonCarvesHandler sampleEnv ⟨[("target", "active")], []⟩ 0).trace
        = metrics (jsonCarvesHandler sampleEnv ⟨[("target", "completed")], []⟩ 0).trace ∧
      metrics (jsonCarvesHandler sampleEnv ⟨[("target", "active")], []⟩ 0).trace
        = [.metricAdminReq, .metricAdminOK] ∧
      logLines (jsonCarvesHandler sampleEnv ⟨[("target", "active")], []⟩ 0).trace
        = ["error getting carves db down"] := by decide
  refine ⟨hfacts, ?_⟩
  rintro ⟨count, hA, hB⟩
  rw [hfacts.2.2.1, hfacts.2.2.2.1, hfacts.1] at hA
  rw [hfacts.2.1, hA] at hB
  exact absurd hB (by decide)

/-- C8 (amended): when `queriesmgr.GetCarves` returns the queries `qs`, every failed
`carvesmgr.GetByQuery` leaves one line `error getting carves` in the process log, in
fetch order, so the number of these lines is the number of skipped queries; nothing
else records a skip: the metric increments are `metricAdminReq` followed by
`metricAdminOK` or `metricAdminErr` according to the serialization alone. -/
theorem carves_skips_are_only_logged {σ : Type} (E : Env σ) (r : Request) (s : σ)
    (target : String) (qs : List Query) (s1 : σ)
    (ht : r.vars.lookup "target" = some target) (hv : CarvesTargets.index target = true)
    (hg : E.GetCarves target s = (.ok qs, s1)) :
    logLines (jsonCarvesHandler E r s).trace =
      skipLines E qs s1 ++
        (match E.marshalCarves ⟨survivingRecords E qs s1⟩ with
         | .ok _ => []
         | .error err => ["error serializing JSON " ++ err]) ∧
    (skipLines E qs s1).length = skipped E qs s1 ∧
    metrics (jsonCarvesHandler E r s).trace =
      [.metricAdminReq,
        match E.marshalCarves ⟨survivingRecords E qs s1⟩ with
        | .ok _ => .metricAdminOK
        | .error _ => .metricAdminErr] := by
  rw [jsonCarvesHandler_fetched E r s target qs s1 ht hv hg]
  refine ⟨?_, skipLines_length E qs s1, ?_⟩
  · cases E.marshalCarves ⟨survivingRecords E qs s1⟩ <;>
      simp [logLines_append, (carvesLoop_trace E qs _).2.2, logLines, preamble, respond]
  · cases E.marshalCarves ⟨survivingRecords E qs s1⟩ <;>
      simp [metrics_append, (carvesLoop_trace E qs _).2.1, metrics, preamble, respond]

/-- Witness of C8 (amended) on `sampleEnv` for target `all`: one skipped query, one
log line, and the request counted as served. -/
theorem carves_skips_are_only_logged_witness :
    logLines (jsonCarvesHandler sampleEnv ⟨[("target", "all")], []⟩ 0).trace
      = skipLines sampleEnv [q1, q2] 1 ++
        (match sampleEnv.marshalCarves ⟨survivingRecords sampleEnv [q1, q2] 1⟩ with
         | .ok _ => []
         | .error err => ["error serializing JSON " ++ err]) ∧
    (skipLines sampleEnv [q1, q2] 1).length = skipped sampleEnv [q1, q2] 1 ∧
    metrics (jsonCarvesHandler sampleEnv ⟨[("target", "all")], []⟩ 0).trace =
      [.metricAdminReq,
        match sampleEnv.marshalCarves ⟨survivingRecords sampleEnv [q1, q2] 1⟩ with
        | .ok _ => .metricAdminOK
        | .error _ => .metricAdminErr] :=
  carves_skips_are_only_logged sampleEnv ⟨[("target", "all")], []⟩ 0 "all" [q1, q2] 1
    (by decide) (by decide) rfl

/-! ## Log handlers: rows to entries -/

theorem appendEach_eq {α β : Type} (f : α → β) (rows : List α) (out : List β) :
    appendEach f rows out = out ++ rows.map f := by
  induction rows generalizing out with
  | nil => simp [appendEach]
  | cons x rows ih => simp [appendEach, ih]

theorem writes_finishLogs {σ : Type} (E : Env σ) (tr : List Event) (logJSON : List LogJSON)
    (s : σ) :
    writes (finishLogs E tr logJSON s).trace =
      writes tr ++
        match E.marshalLogs ⟨logJSON⟩ with
        | .ok body => [body]
        | .error _ => [] := by
  unfold finishLogs
  cases h : E.marshalLogs ⟨logJSON⟩ <;> simp [h, writes_append, writes, respond]

theorem writes_jsonLogsHandler_status {σ : Type} (E : Env σ) (r : Request) (s s1 s2 : σ)
    (env uuid : String) (rows : List StatusLogEntry)
    (ht : r.vars.lookup "type" = some "status")
    (he : r.vars.lookup "environment" = some env) (hex : E.Exists env s = (true, s1))
    (hu : r.vars.lookup "uuid" = some uuid)
    (hst : E.postgresStatusLogs uuid env (secondsBack r) s1 = (.ok rows, s2)) :
    writes (jsonLogsHandler E r s).trace =
      match E.marshalLogs ⟨rows.map (statusEntry E)⟩ with
      | .ok body => [body]
      | .error _ => [] := by
  have hv : LogTypes.index "status" = true := by decide
  simp only [jsonLogsHandler, ht, hv, he, hex, hu, hst, Bool.not_true, Bool.false_eq_true,
    if_false, if_true, writes_finishLogs, appendEach_eq, List.nil_append]
  simp [writes_append, writes, preamble]

theorem writes_jsonLogsHandler_result {σ : Type} (E : Env σ) (r : Request) (s s1 s2 : σ)
    (env uuid : String) (rows : List ResultLogEntry)
    (ht : r.vars.lookup "type" = some "result")
    (he : r.vars.lookup "environment" = some env) (hex : E.Exists env s = (true, s1))
    (hu : r.vars.lookup "uuid" = some uuid)
    (hst : E.postgresResultLogs uuid env (secondsBack r) s1 = (.ok rows, s2)) :
    writes (jsonLogsHandler E r s).trace =
      match E.marshalLogs ⟨rows.map (resultEntry E)⟩ with
      | .ok body => [body]
      | .error _ => [] := by
  have hv : LogTypes.index "result" = true := by decide
  have hne : ¬ ("result" = "status") := by decide
  simp only [jsonLogsHandler, ht, hv, he, hex, hu, hst, hne, Bool.not_true,
    Bool.false_eq_true, if_false, if_true, writes_finishLogs, appendEach_eq, List.nil_append]
  simp [writes_append, writes, preamble]

theorem writes_jsonQueryLogsHandler {σ : Type} (E : Env σ) (r : Request) (s s1 : σ)
    (name : String) (rows : List QueryLogEntry)
    (hn : r.vars.lookup "name" = some name)
    (hq : E.postgresQueryLogs name s = (.ok rows, s1)) :
    writes (jsonQueryLogsHandler E r s).trace =
      match E.marshalQueryLogs ⟨rows.map (queryLogEntry E)⟩ with
      | .ok body => [body]
      | .error _ => [] := by
  simp only [jsonQueryLogsHandler, hn, hq, appendEach_eq, List.nil_append]
  cases h : E.marshalQueryLogs ⟨rows.map (queryLogEntry E)⟩ <;>
    simp [h, writes_append, writes, preamble, respond]

/-- C10: on success the log handlers serialize the element-wise image of the rows
returned by the backing store, in the order returned and one entry per row. For
status logs the entry of a row has `first = Message` and `second = Severity`, for
result logs `first = Name` and `second = string(Columns)`, for query logs
`data = string(Data)`; in every entry `created.display` and `created.timestamp` are
`pastTimeAgo` and `pastTimestamp` of the `CreatedAt` of that same row. The body
written is the serialization of that list whenever the serialization succeeds. -/
theorem logs_entries_are_image_of_rows {σ : Type} (E : Env σ) (r : Request) (s : σ) :
    (∀ (env uuid : String) (s1 s2 : σ) (rows : List StatusLogEntry),
      r.vars.lookup "type" = some "status" →
      r.vars.lookup "environment" = some env → E.Exists env s = (true, s1) →
      r.vars.lookup "uuid" = some uuid →
      E.postgresStatusLogs uuid env (secondsBack r) s1 = (.ok rows, s2) →
      writes (jsonLogsHandler E r s).trace =
        match E.marshalLogs
          ⟨rows.map fun row =>
            { Created := { Display := E.pastTimeAgo row.CreatedAt
                           Timestamp := E.pastTimestamp row.CreatedAt }
              First := row.Message
              Second := row.Severity }⟩ with
        | .ok body => [body]
        | .error _ => []) ∧
    (∀ (env uuid : String) (s1 s2 : σ) (rows : List ResultLogEntry),
      r.vars.lookup "type" = some "result" →
      r.vars.lookup "environment" = some env → E.Exists env s = (true, s1) →
      r.vars.lookup "uuid" = some uuid →
      E.postgresResultLogs uuid env (secondsBack r) s1 = (.ok rows, s2) →
      writes (jsonLogsHandler E r s).trace =
        match E.marshalLogs
          ⟨rows.map fun row =>
            { Created := { Display := E.pastTimeAgo row.CreatedAt
                           Timestamp := E.pastTimestamp row.CreatedAt }
              First := row.Name
              Second := string row.Columns }⟩ with
        | .ok body => [body]
        | .error _ => []) ∧
    (∀ (name : String) (s1 : σ) (rows : List QueryLogEntry),
      r.vars.lookup "name" = some name →
      E.postgresQueryLogs name s = (.ok rows, s1) →
      writes (jsonQueryLogsHandler E r s).trace =
        match E.marshalQueryLogs
          ⟨rows.map fun row =>
            { Created := { Display := E.pastTimeAgo row.CreatedAt
                           Timestamp := E.pastTimestamp row.CreatedAt }
              Data := string row.Data }⟩ with
        | .ok body => [body]
        | .error _ => []) := by
  refine ⟨fun env uuid s1 s2 rows ht he hex hu hst => ?_,
    fun env uuid s1 s2 rows ht he hex hu hst => ?_, fun name s1 rows hn hq => ?_⟩
  · exact writes_jsonLogsHandler_status E r s s1 s2 env uuid rows ht he hex hu hst
  · exact writes_jsonLogsHandler_result E r s s1 s2 env uuid rows ht he hex hu hst
  · exact writes_jsonQueryLogsHandler E r s s1 name rows hn hq

/-- Witness of C10 on `sampleEnv`: the two status rows of node `n1`, its result row
and the two log rows of query `q1` are serialized entry by entry. -/
theorem logs_entries_are_image_of_rows_witness :
    writes (jsonLogsHandler sampleEnv
      ⟨[("type", "status"), ("environment", "dev"), ("uuid", "n1")], []⟩ 0).trace
      = (match sampleEnv.marshalLogs
          ⟨[{ Created := { Display := "ago", Timestamp := "ts" }
              First := "started", Second := "info" },
            { Created := { Display := "ago", Timestamp := "ts" }
              First := "stopped", Second := "warn" }]⟩ with
        | .ok body => [body]
        | .error _ => []) ∧
    writes (jsonLogsHandler sampleEnv
      ⟨[("type", "result"), ("environment", "dev"), ("uuid", "n1")], []⟩ 0).trace
      = (match sampleEnv.marshalLogs
          ⟨[{ Created := { Display := "ago", Timestamp := "ts" }
              First := "uptime", Second := "\x7b\x7d" }]⟩ with
        | .ok body => [body]
        | .error _ => []) ∧
    writes (jsonQueryLogsHandler sampleEnv ⟨[("name", "q1")], []⟩ 0).trace
      = (match sampleEnv.marshalQueryLogs
          ⟨[{ Created := { Display := "ago", Timestamp := "ts" }, Data := "a" },
            { Created := { Display := "ago", Timestamp := "ts" }, Data := "b" }]⟩ with
        | .ok body => [body]
        | .error _ => []) :=
  ⟨(logs_entries_are_image_of_rows sampleEnv
      ⟨[("type", "status"), ("environment", "dev"), ("uuid", "n1")], []⟩ 0).1
      "dev" "n1" 1 2 _ (by decide) (by decide) rfl (by decide) rfl,
   (logs_entries_are_image_of_rows sampleEnv
      ⟨[("type", "result"), ("environment", "dev"), ("uuid", "n1")], []⟩ 0).2.1
      "dev" "n1" 1 2 _ (by decide) (by decide) rfl (by decide) rfl,
   (logs_entries_are_image_of_rows sampleEnv ⟨[("name", "q1")], []⟩ 0).2.2
      "q1" 1 _ (by decide) rfl⟩

/-! ## One response per request -/

theorem jsonCarvesHandler_response {σ : Type} (E : Env σ) (r : Request) (s : σ) :
    (writes (jsonCarvesHandler E r s).trace).length ≤ 1 ∧
    ∀ body : String, body ∈ writes (jsonCarvesHandler E r s).trace ↔
      ∃ (target : String) (qs : List Query) (s1 : σ),
        r.vars.lookup "target" = some target ∧ CarvesTargets.index target = true ∧
        E.GetCarves target s = (.ok qs, s1) ∧
        E.marshalCarves ⟨survivingRecords E qs s1⟩ = .ok body := by
  cases ht : r.vars.lookup "target" with
  | none => simp [jsonCarvesHandler, ht, writes, preamble]
  | some target =>
    by_cases hv : CarvesTargets.index target = true
    swap
    · simp [jsonCarvesHandler, ht, hv, writes, preamble]
    rcases hg : E.GetCarves target s with ⟨res, s1⟩
    cases res with
    | error err =>
      rw [jsonCarvesHandler_fetch_failed E r s target err s1 ht hv hg]
      refine ⟨by simp [writes, preamble], fun body => ⟨fun h => ?_, ?_⟩⟩
      · simp [writes, preamble] at h
      · rintro ⟨t, qs2, s2, h1, -, h3, -⟩
        cases h1
        rw [hg] at h3
        cases h3
    | ok qs =>
      rw [writes_jsonCarvesHandler_fetched E r s target qs s1 ht hv hg]
      cases hm : E.marshalCarves ⟨survivingRecords E qs s1⟩ with
      | error err =>
        refine ⟨by simp, fun body => ⟨fun h => ?_, ?_⟩⟩
        · simp at h
        · rintro ⟨t, qs2, s2, h1, -, h3, h4⟩
          cases h1
          rw [hg] at h3
          cases h3
          rw [hm] at h4
          cases h4
      | ok b =>
        simp only [List.length_singleton, le_refl, List.mem_singleton, true_and]
        intro body
        constructor
        · rintro rfl
          exact ⟨target, qs, s1, rfl, hv, hg, hm⟩
        · rintro ⟨t, qs2, s2, h1, -, h3, h4⟩
          cases h1
          rw [hg] at h3
          cases h3
          rw [hm] at h4
          cases h4
          rfl

theorem jsonQueryLogsHandler_response {σ : Type} (E : Env σ) (r : Request) (s : σ) :
    (writes (jsonQueryLogsHandler E r s).trace).length ≤ 1 ∧
    ∀ body : String, body ∈ writes (jsonQueryLogsHandler E r s).trace ↔
      ∃ (name : String) (rows : List QueryLogEntry) (s1 : σ),
        r.vars.lookup "name" = some name ∧
        E.postgresQueryLogs name s = (.ok rows, s1) ∧
        E.marshalQueryLogs ⟨rows.map (queryLogEntry E)⟩ = .ok body := by
  cases hn : r.vars.lookup "name" with
  | none => simp [jsonQueryLogsHandler, hn, writes, preamble]
  | some name =>
    rcases hq : E.postgresQueryLogs name s with ⟨res, s1⟩
    cases res with
    | error err =>
      refine ⟨by simp [jsonQueryLogsHandler, hn, hq, writes, preamble],
        fun body => ⟨fun h => ?_, ?_⟩⟩
      · simp [jsonQueryLogsHandler, hn, hq, writes, preamble] at h
      · rintro ⟨n2, rows2, s2, h1, h3, -⟩
        cases h1
        rw [hq] at h3
        cases h3
    | ok rows =>
      rw [writes_jsonQueryLogsHandler E r s s1 name rows hn hq]
      cases hm : E.marshalQueryLogs ⟨rows.map (queryLogEntry E)⟩ with
      | error err =>
        refine ⟨by simp, fun body => ⟨fun h => ?_, ?_⟩⟩
        · simp at h
        · rintro ⟨n2, rows2, s2, h1, h3, h4⟩
          cases h1
          rw [hq] at h3
          cases h3
          rw [hm] at h4
          cases h4
      | ok b =>
        simp only [List.length_singleton, le_refl, List.mem_singleton, true_and]
        intro body
        constructor
        · rintro rfl
          exact ⟨name, rows, s1, rfl, hq, hm⟩
        · rintro ⟨n2, rows2, s2, h1, h3, h4⟩
          cases h1
          rw [hq] at h3
          cases h3
          rw [hm] at h4
          cases h4
          rfl

theorem jsonLogsHandler_response {σ : Type} (E : Env σ) (r : Request) (s : σ) :
    (writes (jsonLogsHandler E r s).trace).length ≤ 1 ∧
    ∀ body : String, body ∈ writes (jsonLogsHandler E r s).trace ↔
      ∃ (logType env uuid : String) (s1 : σ),
        r.vars.lookup "type" = some logType ∧ LogTypes.index logType = true ∧
        r.vars.lookup "environment" = some env ∧ E.Exists env s = (true, s1) ∧
        r.vars.lookup "uuid" = some uuid ∧
        ((logType = "status" ∧ ∃ (rows : List StatusLogEntry) (s2 : σ),
            E.postgresStatusLogs uuid env (secondsBack r) s1 = (.ok rows, s2) ∧
            E.marshalLogs ⟨rows.map (statusEntry E)⟩ = .ok body) ∨
         (logType = "result" ∧ ∃ (rows : List ResultLogEntry) (s2 : σ),
            E.postgresResultLogs uuid env (secondsBack r) s1 = (.ok rows, s2) ∧
            E.marshalLogs ⟨rows.map (resultEntry E)⟩ = .ok body)) := by
  have hsr : ¬ ("status" = "result") := by decide
  have hrs : ¬ ("result" = "status") := by decide
  cases ht : r.vars.lookup "type" with
  | none => simp [jsonLogsHandler, ht, writes, preamble]
  | some logType =>
    by_cases hv : LogTypes.index logType = true
    swap
    · simp [jsonLogsHandler, ht, hv, writes, preamble]
    cases he : r.vars.lookup "environment" with
    | none => simp [jsonLogsHandler, ht, hv, he, writes, preamble]
    | some env =>
      rcases hex : E.Exists env s with ⟨b, s1⟩
      cases b with
      | false => simp [jsonLogsHandler, ht, hv, he, hex, writes, preamble]
      | true =>
        cases hu : r.vars.lookup "uuid" with
        | none => simp [jsonLogsHandler, ht, hv, he, hex, hu, writes, preamble]
        | some uuid =>
          rcases (index_LogTypes logType).mp hv with hr | hs
          · subst hr
            rcases hst : E.postgresResultLogs uuid env (secondsBack r) s1 with ⟨res, s2⟩
            cases res with
            | error err =>
              refine ⟨by simp [jsonLogsHandler, ht, hv, he, hex, hu, hst, writes, preamble],
                fun body => ⟨fun h => ?_, ?_⟩⟩
              · simp [jsonLogsHandler, ht, hv, he, hex, hu, hst, writes, preamble] at h
              · rintro ⟨lt, en, u, s1', h1, -, h2, h3, h4, h5⟩
                cases h1; cases h2; cases h4
                rw [hex] at h3
                cases h3
                rcases h5 with ⟨h, -⟩ | ⟨-, rows, s2', h6, -⟩
                · exact absurd h hrs
                · rw [hst] at h6
                  cases h6
            | ok rows =>
              rw [writes_jsonLogsHandler_result E r s s1 s2 env uuid rows ht he hex hu hst]
              cases hm : E.marshalLogs ⟨rows.map (resultEntry E)⟩ with
              | error err =>
                refine ⟨by simp, fun body => ⟨fun h => ?_, ?_⟩⟩
                · simp at h
                · rintro ⟨lt, en, u, s1', h1, -, h2, h3, h4, h5⟩
                  cases h1; cases h2; cases h4
                  rw [hex] at h3
                  cases h3
                  rcases h5 with ⟨h, -⟩ | ⟨-, rows', s2', h6, h7⟩
                  · exact absurd h hrs
                  · rw [hst] at h6
                    cases h6
                    rw [hm] at h7
                    cases h7
              | ok b =>
                simp only [List.length_singleton, le_refl, List.mem_singleton, true_and]
                intro body
                constructor
                · rintro rfl
                  exact ⟨"result", env, uuid, s1, rfl, hv, rfl, hex, rfl,
                    Or.inr ⟨rfl, rows, s2, hst, hm⟩⟩
                · rintro ⟨lt, en, u, s1', h1, -, h2, h3, h4, h5⟩
                  cases h1; cases h2; cases h4
                  rw [hex] at h3
                  cases h3
                  rcases h5 with ⟨h, -⟩ | ⟨-, rows', s2', h6, h7⟩
                  · exact absurd h hrs
                  · rw [hst] at h6
                    cases h6
                    rw [hm] at h7
                    cases h7
                    rfl
          · subst hs
            rcases hst : E.postgresStatusLogs uuid env (secondsBack r) s1 with ⟨res, s2⟩
            cases res with
            | error err =>
              refine ⟨by simp [jsonLogsHandler, ht, hv, he, hex, hu, hst, writes, preamble],
                fun body => ⟨fun h => ?_, ?_⟩⟩
              · simp [jsonLogsHandler, ht, hv, he, hex, hu, hst, writes, preamble] at h
              · rintro ⟨lt, en, u, s1', h1, -, h2, h3, h4, h5⟩
                cases h1; cases h2; cases h4
                rw [hex] at h3
                cases h3
                rcases h5 with ⟨-, rows, s2', h6, -⟩ | ⟨h, -⟩
                · rw [hst] at h6
                  cases h6
                · exact absurd h hsr
            | ok rows =>
              rw [writes_jsonLogsHandler_status E r s s1 s2 env uuid rows ht he hex hu hst]
              cases hm : E.marshalLogs ⟨rows.map (statusEntry E)⟩ with
              | error err =>
                refine ⟨by simp, fun body => ⟨fun h => ?_, ?_⟩⟩
                · simp at h
                · rintro ⟨lt, en, u, s1', h1, -, h2, h3, h4, h5⟩
                  cases h1; cases h2; cases h4
                  rw [hex] at h3
                  cases h3
                  rcases h5 with ⟨-, rows', s2', h6, h7⟩ | ⟨h, -⟩
                  · rw [hst] at h6
                    cases h6
                    rw [hm] at h7
                    cases h7
                  · exact absurd h hsr
              | ok b =>
                simp only [List.length_singleton, le_refl, List.mem_singleton, true_and]
                intro body
                constructor
                · rintro rfl
                  exact ⟨"status", env, uuid, s1, rfl, hv, rfl, hex, rfl,
                    Or.inl ⟨rfl, rows, s2, hst, hm⟩⟩
                · rintro ⟨lt, en, u, s1', h1, -, h2, h3, h4, h5⟩
                  cases h1; cases h2; cases h4
                  rw [hex] at h3
                  cases h3
                  rcases h5 with ⟨-, rows', s2', h6, h7⟩ | ⟨h, -⟩
                  · rw [hst] at h6
                    cases h6
                    rw [hm] at h7
                    cases h7
                    rfl
                  · exact absurd h hsr

/-- C9: each of `jsonCarvesHandler`, `jsonLogsHandler` and `jsonQueryLogsHandler`
writes at most one response body per request, and a body is written exactly when
every required route variable is present, every check passes (`CarvesTargets`,
`LogTypes`, `envs.Exists`), the top-level store read succeeds and the serialization
succeeds; the body is then that serialization of the complete list of entries. In
every other case (a missing variable, a failed check, a failed top-level read, a
failed serialization) nothing is written. -/
theorem handlers_write_once_iff_all_checks_pass {σ : Type} (E : Env σ) (r : Request)
    (s : σ) :
    ((writes (jsonCarvesHandler E r s).trace).length ≤ 1 ∧
      ∀ body : String, body ∈ writes (jsonCarvesHandler E r s).trace ↔
        ∃ (target : String) (qs : List Query) (s1 : σ),
          r.vars.lookup "target" = some target ∧ CarvesTargets.index target = true ∧
          E.GetCarves target s = (.ok qs, s1) ∧
          E.marshalCarves ⟨survivingRecords E qs s1⟩ = .ok body) ∧
    ((writes (jsonLogsHandler E r s).trace).length ≤ 1 ∧
      ∀ body : String, body ∈ writes (jsonLogsHandler E r s).trace ↔
        ∃ (logType env uuid : String) (s1 : σ),
          r.vars.lookup "type" = some logType ∧ LogTypes.index logType = true ∧
          r.vars.lookup "environment" = some env ∧ E.Exists env s = (true, s1) ∧
          r.vars.lookup "uuid" = some uuid ∧
          ((logType = "status" ∧ ∃ (rows : List StatusLogEntry) (s2 : σ),
              E.postgresStatusLogs uuid env (secondsBack r) s1 = (.ok rows, s2) ∧
              E.marshalLogs ⟨rows.map (statusEntry E)⟩ = .ok body) ∨
           (logType = "result" ∧ ∃ (rows : List ResultLogEntry) (s2 : σ),
              E.postgresResultLogs uuid env (secondsBack r) s1 = (.ok rows, s2) ∧
              E.marshalLogs ⟨rows.map (resultEntry E)⟩ = .ok body))) ∧
    ((writes (jsonQueryLogsHandler E r s).trace).length ≤ 1 ∧
      ∀ body : String, body ∈ writes (jsonQueryLogsHandler E r s).trace ↔
        ∃ (name : String) (rows : List QueryLogEntry) (s1 : σ),
          r.vars.lookup "name" = some name ∧
          E.postgresQueryLogs name s = (.ok rows, s1) ∧
          E.marshalQueryLogs ⟨rows.map (queryLogEntry E)⟩ = .ok body) :=
  ⟨jsonCarvesHandler_response E r s, jsonLogsHandler_response E r s,
    jsonQueryLogsHandler_response E r s⟩

/-- Concrete runs for C9 on `sampleEnv`: a request without the `target` variable and a
request for a node without rows get no response; the listing of target `all` and the
query logs of `q1` get exactly one body. -/
theorem handlers_write_once_runs :
    writes (jsonCarvesHandler sampleEnv ⟨[], []⟩ 0).trace = [] ∧
    writes (jsonLogsHandler sampleEnv
      ⟨[("type", "status"), ("environment", "dev"), ("uuid", "n2")], []⟩ 0).trace = [] ∧
    writes (jsonLogsHandler sampleEnv
      ⟨[("type", "status"), ("environment", "dev")], []⟩ 0).trace = [] ∧
    writes (jsonCarvesHandler sampleEnv ⟨[("target", "all")], []⟩ 0).trace = ["*"] ∧
    writes (jsonQueryLogsHandler sampleEnv ⟨[("name", "q1")], []⟩ 0).trace = ["**"] ∧
    writes (jsonQueryLogsHandler sampleEnv ⟨[("name", "q9")], []⟩ 0).trace = [] := by
  decide

/-! ## Osquery tables: the platform filter -/

theorem addFilters_loop (g : OsqueryTable → OsqueryTable) (ts : List OsqueryTable) (k : Nat) :
    ∀ j : Nat,
      ((List.range k).foldl
        (fun tables i =>
          match tables[i]? with
          | none => tables
          | some t => tables.set i (g t)) ts)[j]?
        = if j < k then (ts[j]?).map g else ts[j]? := by
  induction k with
  | zero => intro j; simp
  | succ k ih =>
    intro j
    rw [List.range_succ, List.foldl_append]
    simp only [List.foldl_cons, List.foldl_nil]
    have hk := ih k
    simp only [lt_self_iff_false, if_false] at hk
    rw [hk]
    cases htk : ts[k]? with
    | none =>
      simp only [ih j]
      by_cases hjk : j < k
      · simp [hjk, Nat.lt_succ_of_lt hjk]
      · by_cases hj : j = k
        · subst hj; simp [htk]
        · have : ¬ j < k + 1 := by omega
          simp [hjk, this]
    | some t =>
      simp only [List.getElem?_set, ih]
      have hlen : k < ((List.range k).foldl
          (fun tables i =>
            match tables[i]? with
            | none => tables
            | some t => tables.set i (g t)) ts).length := by
        have hsome := hk.trans htk
        exact (List.getElem?_eq_some_iff.mp hsome).1
      by_cases hj : k = j
      · subst hj; simp [hlen, htk]
      · have h1 : (j < k + 1) ↔ (j < k) := by omega
        simp [hj, h1]

theorem addFilters_eq_map (ts : List OsqueryTable) :
    addFilters ts
      = ts.map (fun t => { t with Filter := TrimSpace (platformsFilter t.Platforms) }) := by
  apply List.ext_getElem?
  intro j
  refine (addFilters_loop
    (fun t => { t with Filter := TrimSpace (platformsFilter t.Platforms) }) ts ts.length j).trans ?_
  by_cases h : j < ts.length
  · simp [h]
  · have hnone : ts[j]? = none := List.getElem?_eq_none (by omega)
    simp [h, hnone]

theorem platformsFilter_eq_join (ps : List String) :
    platformsFilter ps = String.join (ps.map (fun p => " filter-" ++ p)) := by
  simp [platformsFilter, String.join, List.foldl_map]

/-- The characters appended by the inner loop for the platforms `ps`. -/
theorem platformsFilter_loop_data (ps : List String) (acc : String) :
    (ps.foldl (fun filter p => filter ++ (" filter-" ++ p)) acc).data
      = acc.data ++ (ps.map (fun p => ' ' :: ("filter-".data ++ p.data))).flatten := by
  induction ps generalizing acc with
  | nil => simp
  | cons p ps ih =>
    simp only [List.foldl_cons, ih, String.data_append, List.map_cons, List.flatten_cons,
      List.append_assoc]
    rfl

theorem intercalate_go_data (acc sep : String) (l : List String) :
    (String.intercalate.go acc sep l).data
      = acc.data ++ (l.map (fun a => sep.data ++ a.data)).flatten := by
  induction l generalizing acc with
  | nil => simp [String.intercalate.go]
  | cons a l ih =>
    simp [String.intercalate.go, ih, String.data_append, List.append_assoc]

theorem segment_last (p : String) (hp : endsInSpace p = false) (pre : List Char) (c : Char)
    (hc : (pre ++ ("filter-".data ++ p.data)).getLast? = some c) : IsSpace c = false := by
  cases hd : p.data with
  | nil =>
    rw [hd, List.append_nil, List.getLast?_append] at hc
    have : "filter-".data.getLast? = some '-' := by decide
    rw [this] at hc
    simp at hc
    subst hc
    decide
  | cons a l =>
    rw [hd, ← List.append_assoc, List.getLast?_append] at hc
    have hne : (a :: l).getLast? = some ((a :: l).getLast (by simp)) :=
      List.getLast?_eq_getLast _ _
    rw [hne] at hc
    have hc2 : (a :: l).getLast (by simp) = c := by simpa [Option.or] using hc
    have he : endsInSpace p = IsSpace ((a :: l).getLast (by simp)) := by
      unfold endsInSpace
      have : p.toList = a :: l := hd
      rw [this, hne]
    rw [← hc2, ← he, hp]

theorem trailing_not_space (ps : List String) (hall : ∀ p ∈ ps, endsInSpace p = false) :
    ∀ pre : List Char, (∀ c, pre.getLast? = some c → IsSpace c = false) →
      ∀ c, (pre ++ (ps.map (fun p => ' ' :: ("filter-".data ++ p.data))).flatten).getLast?
        = some c → IsSpace c = false := by
  induction ps with
  | nil => intro pre hpre c hc; exact hpre c (by simpa using hc)
  | cons p ps ih =>
    intro pre _ c hc
    have hall2 : ∀ q ∈ ps, endsInSpace q = false := fun q hq => hall q (List.mem_cons_of_mem _ hq)
    refine ih hall2 (pre ++ [' '] ++ ("filter-".data ++ p.data)) ?_ c ?_
    · intro d hd
      exact segment_last p (hall p (List.mem_cons_self _ _)) (pre ++ [' ']) d hd
    · simpa [List.append_assoc] using hc

theorem trim_platformsFilter (ps : List String) (hall : ∀ p ∈ ps, endsInSpace p = false) :
    TrimSpace (platformsFilter ps) = " ".intercalate (ps.map (fun p => "filter-" ++ p)) := by
  cases ps with
  | nil => decide
  | cons p rest =>
    have hall2 : ∀ q ∈ rest, endsInSpace q = false :=
      fun q hq => hall q (List.mem_cons_of_mem _ hq)
    have hleft : (platformsFilter (p :: rest)).toList
        = ' ' :: 'f' :: ("ilter-".data ++ p.data
            ++ (rest.map (fun q => ' ' :: ("filter-".data ++ q.data))).flatten) := by
      show (platformsFilter (p :: rest)).data = _
      rw [platformsFilter, platformsFilter_loop_data]
      simp only [List.map_cons, List.flatten_cons]
      rfl
    have hright : (" ".intercalate ((p :: rest).map (fun p => "filter-" ++ p))).data
        = 'f' :: ("ilter-".data ++ p.data
            ++ (rest.map (fun q => ' ' :: ("filter-".data ++ q.data))).flatten) := by
      simp only [List.map_cons, String.intercalate, intercalate_go_data, String.data_append,
        List.map_map]
      rfl
    have hlast : ∀ c, ('f' :: ("ilter-".data ++ p.data
        ++ (rest.map (fun q => ' ' :: ("filter-".data ++ q.data))).flatten)).getLast? = some c →
        IsSpace c = false := by
      intro c hc
      refine trailing_not_space rest hall2 ("filter-".data ++ p.data) ?_ c hc
      intro d hd
      exact segment_last p (hall p (List.mem_cons_self _ _)) [] d hd
    apply String.ext
    rw [hright]
    show ((platformsFilter (p :: rest)).toList.dropWhile IsSpace).rdropWhile IsSpace = _
    rw [hleft]
    have h1 : IsSpace ' ' = true := by decide
    have h2 : IsSpace 'f' = false := by decide
    rw [List.dropWhile_cons, h1]
    simp only [if_true]
    rw [List.dropWhile_cons, h2]
    simp only [Bool.false_eq_true, if_false]
    rw [List.rdropWhile_eq_self_iff]
    intro hl
    rw [hlast _ (List.getLast?_eq_getLast _ hl)]
    exact Bool.false_ne_true

theorem TrimSpace_no_outer_space (s : String) (c : Char)
    (hc : (TrimSpace s).toList.head? = some c ∨ (TrimSpace s).toList.getLast? = some c) :
    IsSpace c = false := by
  have hdata : (TrimSpace s).toList = (s.toList.dropWhile IsSpace).rdropWhile IsSpace := rfl
  rw [hdata] at hc
  have hne : (s.toList.dropWhile IsSpace).rdropWhile IsSpace ≠ [] := by
    intro h
    rw [h] at hc
    simp at hc
  rcases hc with hc | hc
  · have hpre : (s.toList.dropWhile IsSpace).rdropWhile IsSpace <+: s.toList.dropWhile IsSpace :=
      List.rdropWhile_prefix IsSpace _
    have hne2 : s.toList.dropWhile IsSpace ≠ [] := by
      intro h
      rw [h] at hne
      exact hne (List.rdropWhile_nil IsSpace)
    have hhead := hpre.head hne
    rw [List.head?_eq_head hne, Option.some.injEq] at hc
    have hnot := List.head_dropWhile_not IsSpace s.toList hne2
    rw [← hc, hhead]
    exact hnot
  · rw [List.getLast?_eq_getLast _ hne, Option.some.injEq] at hc
    have hnot := List.rdropWhile_last_not IsSpace (s.toList.dropWhile IsSpace) hne
    rw [← hc]
    simpa using hnot

/-- C11: when `loadOsqueryTables` returns `nil`, the file was opened and decoded
without error and the tables left in `osqueryTables` are the decoded tables, one to
one and in order, with `Name`, `URL` and `Platforms` unchanged. The `Filter` of each is
`strings.TrimSpace` of the concatenation of `" filter-" + p` over its platforms in
order, and it has no leading or trailing space. It is the empty string for a table
without platforms, and when no platform name ends in a space it is the strings
`"filter-" + p` joined by single spaces. -/
theorem tables_filter_from_platforms (F : TablesFile) (before after : List OsqueryTable)
    (hok : loadOsqueryTables F before = .returned none after) :
    ∃ loaded : List OsqueryTable,
      F.Open = none ∧ F.Unmarshal F.ReadAll before = (none, loaded) ∧
      List.Forall₂
        (fun (t0 t : OsqueryTable) =>
          t.Filter = TrimSpace (String.join (t0.Platforms.map (fun p => " filter-" ++ p))) ∧
          (∀ c : Char, t.Filter.toList.head? = some c ∨ t.Filter.toList.getLast? = some c →
            IsSpace c = false) ∧
          (t0.Platforms = [] → t.Filter = "") ∧
          ((∀ p ∈ t0.Platforms, endsInSpace p = false) →
            t.Filter = " ".intercalate (t0.Platforms.map (fun p => "filter-" ++ p))) ∧
          t.Name = t0.Name ∧ t.URL = t0.URL ∧ t.Platforms = t0.Platforms)
        loaded after := by
  unfold loadOsqueryTables at hok
  cases hopen : F.Open with
  | some err => simp [hopen] at hok
  | none =>
    rcases hun : F.Unmarshal F.ReadAll before with ⟨e, loaded⟩
    cases hclose : F.Close with
    | some err =>
      cases e <;> simp [hopen, hun, deferredClose, hclose] at hok
    | none =>
      cases e with
      | some err => simp [hopen, hun, deferredClose, hclose] at hok
      | none =>
        simp only [hopen, hun, deferredClose, hclose, LoadResult.returned.injEq,
          true_and] at hok
        refine ⟨loaded, rfl, rfl, ?_⟩
        rw [← hok, addFilters_eq_map, List.forall₂_map_right_iff, List.forall₂_same]
        intro t _
        refine ⟨?_, ?_, ?_, ?_, rfl, rfl, rfl⟩
        · show TrimSpace (platformsFilter t.Platforms) = _
          rw [platformsFilter_eq_join]
        · intro c hc
          exact TrimSpace_no_outer_space (platformsFilter t.Platforms) c hc
        · intro hnil
          show TrimSpace (platformsFilter t.Platforms) = _
          rw [hnil]
          decide
        · intro hall
          exact trim_platformsFilter t.Platforms hall

/-- Witness of C11 on `sampleTablesFile`: the load succeeds; `processes` gets the
filter `filter-darwin filter-linux`, `time`, without platforms, gets the empty filter
in place of the decoded one, and `users`, whose last platform name ends in a space,
gets the trimmed `filter-windows filter-freebsd`. -/
theorem tables_filter_from_platforms_witness :
    loadOsqueryTables sampleTablesFile [] = .returned none
      [⟨"processes", "https://osquery.io/schema/#processes", ["darwin", "linux"],
          "filter-darwin filter-linux"⟩,
       ⟨"time", "https://osquery.io/schema/#time", [], ""⟩,
       ⟨"users", "https://osquery.io/schema/#users", ["windows", "freebsd "],
          "filter-windows filter-freebsd"⟩] ∧
    ∃ loaded : List OsqueryTable,
      sampleTablesFile.Open = none ∧
      sampleTablesFile.Unmarshal sampleTablesFile.ReadAll [] = (none, loaded) ∧
      List.Forall₂
        (fun (t0 t : OsqueryTable) =>
          t.Filter = TrimSpace (String.join (t0.Platforms.map (fun p => " filter-" ++ p))) ∧
          (∀ c : Char, t.Filter.toList.head? = some c ∨ t.Filter.toList.getLast? = some c →
            IsSpace c = false) ∧
          (t0.Platforms = [] → t.Filter = "") ∧
          ((∀ p ∈ t0.Platforms, endsInSpace p = false) →
            t.Filter = " ".intercalate (t0.Platforms.map (fun p => "filter-" ++ p))) ∧
          t.Name = t0.Name ∧ t.URL = t0.URL ∧ t.Platforms = t0.Platforms)
        loaded
        [⟨"processes", "https://osquery.io/schema/#processes", ["darwin", "linux"],
            "filter-darwin filter-linux"⟩,
         ⟨"time", "https://osquery.io/schema/#time", [], ""⟩,
         ⟨"users", "https://osquery.io/schema/#users", ["windows", "freebsd "],
            "filter-windows filter-freebsd"⟩] :=
  ⟨by decide, tables_filter_from_platforms sampleTablesFile [] _ (by decide)⟩

end Osctrl
